import Mathlib

/-!
Verification of the WS2812B 5x5 LED-matrix driver (src/matriz.c, src/matriz.h).

The driver's observable state is its single static pixel buffer
(`matriz_buffer`, 25 packed GRB words) together with the sequence of 32-bit
words handed to the blocking transmit primitive `pio_sm_put_blocking`.
We embed that state as `DriverState` and each C function as a pure state
transformer.  Machine integers are modelled as `Nat` with explicit
reduction modulo `2^32` (the C `uint` / `uint32_t` type) where the source
performs unsigned arithmetic that could wrap, and modulo `2^8` where a
parameter has C type `uint8_t`.
-/

namespace Matriz

/-- Modulus of the 32-bit unsigned integer types (`uint`, `uint32_t`) used
throughout src/matriz.c. -/
def UINT32_MOD : Nat := 4294967296

/-- Embedding of `xy_to_index` (src/matriz.c lines 54-63):
`uint inverted_y = 4 - y;` followed by
`if (inverted_y % 2 == 0) return inverted_y * 5 + x; else return inverted_y * 5 + (4 - x);`.
All arithmetic is C `uint` arithmetic, so subtraction and the final sums are
taken modulo `2^32`; `y % UINT32_MOD` is the machine value of the parameter. -/
def xy_to_index (x y : Nat) : Nat :=
  let inverted_y := (4 + UINT32_MOD - y % UINT32_MOD) % UINT32_MOD
  if inverted_y % 2 = 0 then
    (inverted_y * 5 + x) % UINT32_MOD
  else
    (inverted_y * 5 + ((4 + UINT32_MOD - x % UINT32_MOD) % UINT32_MOD)) % UINT32_MOD

/-- Embedding of `urgb_u32` (src/matriz.c lines 33-35):
`((uint32_t)(g) << 16) | ((uint32_t)(r) << 8) | (uint32_t)(b)`.
The `% 256` on each argument models the `uint8_t` parameter type; the result
is below `2^24`, so no 32-bit wrap can occur and no outer reduction is needed. -/
def urgb_u32 (r g b : Nat) : Nat :=
  ((g % 256) <<< 16) ||| ((r % 256) <<< 8) ||| (b % 256)

/-- Embedding of `put_pixel_raw` (src/matriz.c lines 42-44): the 32-bit word
`pixel_grb << 8u` that is handed to `pio_sm_put_blocking`. -/
def put_pixel_raw (pixel_grb : Nat) : Nat :=
  ((pixel_grb % UINT32_MOD) <<< 8) % UINT32_MOD

/-- The observable state of the driver module: the static pixel buffer
`matriz_buffer` (25 slots, src/matriz.c line 17) and the cumulative sequence
of words handed to the blocking transmit primitive, in call order. -/
structure DriverState where
  buffer : List Nat
  transmitted : List Nat
deriving DecidableEq, Repr

/-- The state at module start: `matriz_buffer` is zero-initialized
(`= {0}`, src/matriz.c line 17) and nothing has been transmitted. -/
def initState : DriverState :=
  { buffer := List.replicate 25 0, transmitted := [] }

/-- Embedding of `matriz_limpar` (src/matriz.c lines 80-83):
`memset(matriz_buffer, 0, sizeof(matriz_buffer))` zeroes all 25 slots and
touches nothing else. -/
def matriz_limpar (s : DriverState) : DriverState :=
  { s with buffer := List.replicate 25 0 }

/-- Embedding of `matriz_set_pixel` (src/matriz.c lines 95-99):
`if (x < 5 && y < 5) matriz_buffer[xy_to_index(x, y)] = urgb_u32(r, g, b);`.
Out-of-range coordinates fall through silently. -/
def matriz_set_pixel (x y r g b : Nat) (s : DriverState) : DriverState :=
  if x < 5 ∧ y < 5 then
    { s with buffer := s.buffer.set (xy_to_index x y) (urgb_u32 r g b) }
  else
    s

/-- Embedding of `matriz_renderizar` (src/matriz.c lines 105-109):
`for (int i = 0; i < LED_COUNT; ++i) put_pixel_raw(matriz_buffer[i]);`
appends, in loop order `i = 0, 1, ..., 24`, the word `matriz_buffer[i] << 8`
to the transmitted sequence; the buffer itself is not modified. -/
def matriz_renderizar (s : DriverState) : DriverState :=
  { s with transmitted :=
      s.transmitted ++ (List.range 25).map (fun i => put_pixel_raw (s.buffer.getD i 0)) }

/-- The serpentine mapping as the specification states it (spec section 4.1):
`row' = 4 - y`; if `row'` is even, `index = row' * 5 + x`, else
`index = row' * 5 + (4 - x)`.  Stated over the in-range domain, where
mathematical and 32-bit unsigned arithmetic agree. -/
def spec_serpentine_index (x y : Nat) : Nat :=
  let row := 4 - y
  if row % 2 = 0 then row * 5 + x else row * 5 + (4 - x)

/-- The invariant of claim C10: every word stored in the pixel buffer fits in
the 24 significant bits of the GRB wire format. -/
def buffer_within_24_bits (s : DriverState) : Prop :=
  ∀ w ∈ s.buffer, w < 2 ^ 24

set_option synthInstance.maxSize 512 in
/-- Claim C1: restricted to x, y in [0,4], `xy_to_index` is a bijection onto
[0,24]: distinct coordinate pairs never collide, and every index in [0,24]
is reached by some in-range coordinate pair. -/
theorem xy_to_index_bijective :
    (∀ x₁, x₁ < 5 → ∀ y₁, y₁ < 5 → ∀ x₂, x₂ < 5 → ∀ y₂, y₂ < 5 →
      xy_to_index x₁ y₁ = xy_to_index x₂ y₂ → x₁ = x₂ ∧ y₁ = y₂)
    ∧ (∀ i, i < 25 → ∃ x, x < 5 ∧ ∃ y, y < 5 ∧ xy_to_index x y = i) := by
  refine ⟨?_, ?_⟩ <;> decide

/-- Witness for C1: the injectivity half applied at the concrete coordinates
(3, 2) and (3, 2). -/
theorem xy_to_index_bijective_witness : (3 : Nat) = 3 ∧ (2 : Nat) = 2 :=
  xy_to_index_bijective.1 3 (by decide) 2 (by decide) 3 (by decide) 2 (by decide) rfl

/-- Claim C2: on the in-range domain, `xy_to_index` agrees with the
serpentine-with-vertical-flip formula of the spec, and takes the four stated
sample values index(0,4) = 0, index(4,4) = 4, index(0,3) = 9, index(4,3) = 5. -/
theorem xy_to_index_eq_spec_formula :
    (∀ x, x < 5 → ∀ y, y < 5 → xy_to_index x y = spec_serpentine_index x y)
    ∧ xy_to_index 0 4 = 0 ∧ xy_to_index 4 4 = 4
    ∧ xy_to_index 0 3 = 9 ∧ xy_to_index 4 3 = 5 := by
  refine ⟨?_, ?_, ?_, ?_, ?_⟩ <;> decide

/-- Witness for C2: the pointwise agreement applied at the concrete
coordinates (1, 2). -/
theorem xy_to_index_eq_spec_formula_witness :
    xy_to_index 1 2 = spec_serpentine_index 1 2 :=
  xy_to_index_eq_spec_formula.1 1 (by decide) 2 (by decide)

/-- Helper: on the in-range domain the computed index lands in [0,24]. -/
theorem xy_to_index_lt_25 (x y : Nat) (hx : x < 5) (hy : y < 5) :
    xy_to_index x y < 25 := by
  have h : ∀ x, x < 5 → ∀ y, y < 5 → xy_to_index x y < 25 := by decide
  exact h x hx y hy

/-- Helper: with in-range coordinates, `matriz_set_pixel` takes the then-branch
of its bounds check and writes exactly one buffer slot. -/
theorem set_pixel_in_range (x y r g b : Nat) (s : DriverState)
    (hx : x < 5) (hy : y < 5) :
    matriz_set_pixel x y r g b s
      = { s with buffer := s.buffer.set (xy_to_index x y) (urgb_u32 r g b) } := by
  unfold matriz_set_pixel
  exact if_pos ⟨hx, hy⟩

/-- Claim C3: for in-range coordinates and 8-bit channel values, after
`matriz_set_pixel(x, y, r, g, b)` the slot at `xy_to_index x y` holds exactly
the packed word `(g <<< 16) ||| (r <<< 8) ||| b`. -/
theorem set_pixel_stores_packed_word (x y r g b : Nat) (s : DriverState)
    (hx : x < 5) (hy : y < 5) (hr : r < 256) (hg : g < 256) (hb : b < 256)
    (hlen : s.buffer.length = 25) :
    (matriz_set_pixel x y r g b s).buffer[xy_to_index x y]?
      = some ((g <<< 16) ||| (r <<< 8) ||| b) := by
  rw [set_pixel_in_range x y r g b s hx hy]
  show (s.buffer.set (xy_to_index x y) (urgb_u32 r g b))[xy_to_index x y]? = _
  rw [List.getElem?_set_self (by rw [hlen]; exact xy_to_index_lt_25 x y hx hy)]
  simp [urgb_u32, Nat.mod_eq_of_lt hr, Nat.mod_eq_of_lt hg, Nat.mod_eq_of_lt hb]

/-- Witness for C3: `set_pixel(0, 0, 255, 0, 128)` stores the word
`0x0000FF80` in slot `xy_to_index 0 0`. -/
theorem set_pixel_stores_packed_word_witness :
    (matriz_set_pixel 0 0 255 0 128 initState).buffer[xy_to_index 0 0]?
      = some 0x0000FF80 :=
  (set_pixel_stores_packed_word 0 0 255 0 128 initState (by decide) (by decide)
      (by decide) (by decide) (by decide) (by decide)).trans (by decide)

/-- Claim C4: any call with x > 4 or y > 4 leaves the whole driver state
(buffer and transmission log) unchanged; there is no error channel. -/
theorem set_pixel_out_of_range_is_noop (x y r g b : Nat) (s : DriverState)
    (h : 4 < x ∨ 4 < y) : matriz_set_pixel x y r g b s = s := by
  have hc : ¬(x < 5 ∧ y < 5) := by omega
  unfold matriz_set_pixel
  exact if_neg hc

/-- Witness for C4: both `set_pixel(5, 0, ...)` and `set_pixel(0, 5, ...)`
leave the initial state untouched. -/
theorem set_pixel_out_of_range_is_noop_witness :
    matriz_set_pixel 5 0 7 7 7 initState = initState
    ∧ matriz_set_pixel 0 5 7 7 7 initState = initState :=
  ⟨set_pixel_out_of_range_is_noop 5 0 7 7 7 initState (Or.inl (by decide)),
   set_pixel_out_of_range_is_noop 0 5 7 7 7 initState (Or.inr (by decide))⟩

/-- Claim C5: one call to `matriz_renderizar` hands exactly 25 words to the
blocking transmit primitive, appended to the log in slot order 0..24, and the
word for slot i is the stored word of slot i shifted left by 8 bits (in 32-bit
arithmetic), whatever the buffer contents are. -/
theorem renderizar_transmits_25_shifted_words (s : DriverState)
    (hlen : s.buffer.length = 25) :
    (matriz_renderizar s).transmitted.length = s.transmitted.length + 25
    ∧ (matriz_renderizar s).transmitted.take s.transmitted.length = s.transmitted
    ∧ ∀ i, i < 25 →
        (matriz_renderizar s).transmitted[s.transmitted.length + i]?
          = Option.map (fun w => (w <<< 8) % UINT32_MOD) s.buffer[i]? := by
  refine ⟨?_, ?_, ?_⟩
  · show (s.transmitted ++ _).length = _
    simp
  · show (s.transmitted ++ _).take s.transmitted.length = _
    exact List.take_left _ _
  · intro i hi
    have hib : i < s.buffer.length := by rw [hlen]; exact hi
    show (s.transmitted
        ++ (List.range 25).map (fun j => put_pixel_raw (s.buffer.getD j 0)))[s.transmitted.length + i]? = _
    rw [List.getElem?_append_right (Nat.le_add_right _ _), Nat.add_sub_cancel_left,
      List.getElem?_map, List.getElem?_range hi, List.getElem?_eq_getElem hib]
    show some (put_pixel_raw (s.buffer.getD i 0)) = _
    rw [List.getD_eq_getElem?_getD, List.getElem?_eq_getElem hib]
    show some (put_pixel_raw (s.buffer.get ⟨i, hib⟩)) = some ((s.buffer.get ⟨i, hib⟩ <<< 8) % UINT32_MOD)
    unfold put_pixel_raw
    rw [Nat.shiftLeft_eq, Nat.shiftLeft_eq, Nat.mod_mul_mod]

/-- Witness for C5: rendering the initial state appends 25 words, the fourth
of which is the zero word. -/
theorem renderizar_transmits_25_shifted_words_witness :
    (matriz_renderizar initState).transmitted.length
      = initState.transmitted.length + 25
    ∧ (matriz_renderizar initState).transmitted[initState.transmitted.length + 3]?
      = some 0 :=
  ⟨(renderizar_transmits_25_shifted_words initState (by decide)).1,
   ((renderizar_transmits_25_shifted_words initState (by decide)).2.2 3
      (by decide)).trans (by decide)⟩

/-- Claim C6: `matriz_limpar` followed by `matriz_renderizar` hands exactly 25
zero words to the transmit primitive, in slot order, from any prior state. -/
theorem limpar_then_renderizar_sends_25_zeros (s : DriverState) :
    (matriz_renderizar (matriz_limpar s)).transmitted
      = s.transmitted ++ List.replicate 25 0 := by
  have h : (List.range 25).map (fun i => put_pixel_raw ((List.replicate 25 (0 : Nat)).getD i 0))
      = List.replicate 25 0 := by decide
  show s.transmitted ++ (List.range 25).map (fun i => put_pixel_raw ((List.replicate 25 (0 : Nat)).getD i 0))
      = s.transmitted ++ List.replicate 25 0
  rw [h]

/-- Claim C7: `matriz_limpar` sets all 25 buffer slots to the zero word and
changes nothing else: the transmission log is untouched, and the operation is
total (no failure mode). -/
theorem limpar_zeroes_all_slots (s : DriverState) :
    (matriz_limpar s).buffer = List.replicate 25 0
    ∧ (matriz_limpar s).buffer.length = 25
    ∧ (matriz_limpar s).transmitted = s.transmitted :=
  ⟨rfl, rfl, rfl⟩

/-- Claim C8: an in-range `matriz_set_pixel` writes only the slot at
`xy_to_index x y`; every other slot keeps its previous value, and no word is
transmitted. -/
theorem set_pixel_frame_effect (x y r g b : Nat) (s : DriverState)
    (hx : x < 5) (hy : y < 5) (hlen : s.buffer.length = 25) :
    (matriz_set_pixel x y r g b s).buffer[xy_to_index x y]? = some (urgb_u32 r g b)
    ∧ (∀ j, j < 25 → j ≠ xy_to_index x y →
        (matriz_set_pixel x y r g b s).buffer[j]? = s.buffer[j]?)
    ∧ (matriz_set_pixel x y r g b s).transmitted = s.transmitted := by
  rw [set_pixel_in_range x y r g b s hx hy]
  refine ⟨?_, ?_, rfl⟩
  · exact List.getElem?_set_self (by rw [hlen]; exact xy_to_index_lt_25 x y hx hy)
  · intro j hj hne
    exact List.getElem?_set_ne (Ne.symm hne)

/-- Witness for C8: setting (1, 1) writes slot `xy_to_index 1 1` and leaves
slot 0 and the transmission log of the initial state unchanged. -/
theorem set_pixel_frame_effect_witness :
    (matriz_set_pixel 1 1 9 9 9 initState).buffer[xy_to_index 1 1]?
      = some (urgb_u32 9 9 9)
    ∧ (matriz_set_pixel 1 1 9 9 9 initState).buffer[0]? = initState.buffer[0]?
    ∧ (matriz_set_pixel 1 1 9 9 9 initState).transmitted = initState.transmitted :=
  ⟨(set_pixel_frame_effect 1 1 9 9 9 initState (by decide) (by decide) (by decide)).1,
   (set_pixel_frame_effect 1 1 9 9 9 initState (by decide) (by decide) (by decide)).2.1
      0 (by decide) (by decide),
   (set_pixel_frame_effect 1 1 9 9 9 initState (by decide) (by decide) (by decide)).2.2⟩

/-- Claim C9: for an in-range coordinate, writing a pixel twice is the same as
writing only the second color (last write wins), and writing the same color
twice is the same as writing it once (idempotence). -/
theorem set_pixel_last_write_wins (x y r₁ g₁ b₁ r₂ g₂ b₂ : Nat) (s : DriverState)
    (hx : x < 5) (hy : y < 5) :
    matriz_set_pixel x y r₂ g₂ b₂ (matriz_set_pixel x y r₁ g₁ b₁ s)
      = matriz_set_pixel x y r₂ g₂ b₂ s
    ∧ matriz_set_pixel x y r₂ g₂ b₂ (matriz_set_pixel x y r₂ g₂ b₂ s)
      = matriz_set_pixel x y r₂ g₂ b₂ s := by
  refine ⟨?_, ?_⟩ <;> simp [matriz_set_pixel, hx, hy, List.set_set]

/-- Witness for C9: overwriting pixel (0, 0) at concrete colors. -/
theorem set_pixel_last_write_wins_witness :
    matriz_set_pixel 0 0 4 5 6 (matriz_set_pixel 0 0 1 2 3 initState)
      = matriz_set_pixel 0 0 4 5 6 initState
    ∧ matriz_set_pixel 0 0 4 5 6 (matriz_set_pixel 0 0 4 5 6 initState)
      = matriz_set_pixel 0 0 4 5 6 initState :=
  set_pixel_last_write_wins 0 0 1 2 3 4 5 6 initState (by decide) (by decide)

/-- Helper: the packed GRB word always fits in 24 bits. -/
theorem urgb_u32_lt_two_pow_24 (r g b : Nat) : urgb_u32 r g b < 2 ^ 24 := by
  have h16 : (2 : Nat) ^ 16 = 65536 := by norm_num
  have h8 : (2 : Nat) ^ 8 = 256 := by norm_num
  have hg : (g % 256) <<< 16 < 2 ^ 24 := by
    rw [Nat.shiftLeft_eq, h16]
    have := Nat.mod_lt g (show 0 < 256 by decide)
    omega
  have hr : (r % 256) <<< 8 < 2 ^ 24 := by
    rw [Nat.shiftLeft_eq, h8]
    have := Nat.mod_lt r (show 0 < 256 by decide)
    omega
  have hb : b % 256 < 2 ^ 24 := by
    have := Nat.mod_lt b (show 0 < 256 by decide)
    omega
  exact Nat.or_lt_two_pow (Nat.or_lt_two_pow hg hr) hb

/-- Claim C10: every stored buffer word is below 2^24.  The invariant holds of
the zero-initialized buffer and is preserved by `matriz_limpar` and by every
`matriz_set_pixel` call. -/
theorem buffer_stays_within_24_bits :
    buffer_within_24_bits initState
    ∧ (∀ s, buffer_within_24_bits (matriz_limpar s))
    ∧ (∀ x y r g b : Nat, ∀ s, buffer_within_24_bits s →
        buffer_within_24_bits (matriz_set_pixel x y r g b s)) := by
  refine ⟨?_, ?_, ?_⟩
  · intro w hw
    rw [List.eq_of_mem_replicate (hw : w ∈ List.replicate 25 0)]
    decide
  · intro s w hw
    rw [List.eq_of_mem_replicate (hw : w ∈ List.replicate 25 0)]
    decide
  · intro x y r g b s hs w hw
    unfold matriz_set_pixel at hw
    by_cases h : x < 5 ∧ y < 5
    · rw [if_pos h] at hw
      rcases List.mem_or_eq_of_mem_set hw with h1 | h2
      · exact hs w h1
      · rw [h2]
        exact urgb_u32_lt_two_pow_24 r g b
    · rw [if_neg h] at hw
      exact hs w hw

/-- Witness for C10: the word stored by `set_pixel(0, 0, 255, 255, 255)` in a
fresh buffer is below 2^24. -/
theorem buffer_stays_within_24_bits_witness : (16777215 : Nat) < 2 ^ 24 :=
  buffer_stays_within_24_bits.2.2 0 0 255 255 255 initState
    (show ∀ w ∈ initState.buffer, w < 2 ^ 24 by decide)
    16777215 (by decide)

end Matriz
